import Mathlib

/-!
Verification of the chat history (undo/redo) subsystem, the streaming chat
reducer, and the live-audio transcript/playback handlers of the AI-zymzz
application, as shallow Lean embeddings of the TypeScript source
(src/unnamed/part_000 ChatBot, src/components/AudioTools.tsx LiveAgent).
-/

/-- Role of a chat message, src/types.ts. -/
inductive Role where
  | user
  | model
deriving DecidableEq

/-- Delivery status of a user message, src/types.ts. -/
inductive DeliveryStatus where
  | sent
  | delivered
  | read
deriving DecidableEq

/-- One part of a chat message, src/types.ts. -/
structure MsgPart where
  text : String
deriving DecidableEq

/-- A chat message, src/types.ts ChatMessage. -/
structure ChatMessage where
  role : Role
  parts : List MsgPart
  timestamp : String
  status : Option DeliveryStatus := none
deriving DecidableEq

/-- The undo/redo history state of the chat panel, src/unnamed/part_000 lines 17-21. -/
structure History where
  past : List (List ChatMessage)
  present : List ChatMessage
  future : List (List ChatMessage)
deriving DecidableEq

/-- setMessages, src/unnamed/part_000 lines 63-74: a streaming update only
replaces present; a non-streaming update pushes the old present onto past,
installs the new list as present and clears future. -/
def setMessages (newMessages : List ChatMessage) (isStreamingUpdate : Bool)
    (current : History) : History :=
  if isStreamingUpdate then
    { current with present := newMessages }
  else
    { past := current.past ++ [current.present], present := newMessages, future := [] }

/-- handleUndo, src/unnamed/part_000 lines 76-87: when past is non-empty, its
last entry (past[past.length - 1]) becomes present, past is truncated by one
(slice(0, length - 1)) and the old present is pushed onto the front of future. -/
def handleUndo (h : History) : History :=
  match h.past.getLast? with
  | none => h
  | some previous =>
      { past := h.past.dropLast, present := previous, future := h.present :: h.future }

/-- handleRedo, src/unnamed/part_000 lines 89-100: when future is non-empty,
its first entry (future[0]) becomes present, future is truncated by one
(slice(1)) and the old present is appended to past. -/
def handleRedo (h : History) : History :=
  match h.future with
  | [] => h
  | next :: rest =>
      { past := h.past ++ [h.present], present := next, future := rest }

/-- The greeting message installed on first start and on clear,
src/unnamed/part_000 lines 41 and 124 (the timestamp is taken from the clock). -/
def greetingMessage (ts : String) : ChatMessage :=
  { role := Role.model, parts := [{ text := "Hello! How can I help you today?" }], timestamp := ts }

/-- handleClear, src/unnamed/part_000 lines 122-132.  The stored value at the
gemini-chat-history key of local storage is modelled as
Option (List ChatMessage) (serialization abstracted to the stored list itself).
On confirmation the history is reset to the single greeting message and the
key is removed; otherwise nothing happens. -/
def handleClear (confirmed : Bool) (ts : String)
    (st : History × Option (List ChatMessage)) : History × Option (List ChatMessage) :=
  if confirmed then
    ({ past := [], present := [greetingMessage ts], future := [] }, none)
  else st

/-- The persistence effect, src/unnamed/part_000 lines 55-61: whenever present
changes, the list is written to the gemini-chat-history key, but only when it
holds more than one message (messages.length > 1); otherwise the stored value
is left as it was. -/
def persistEffect (messages : List ChatMessage)
    (stored : Option (List ChatMessage)) : Option (List ChatMessage) :=
  if 1 < messages.length then some messages else stored

/-- The init effect, src/unnamed/part_000 lines 37-42 (success path): a saved
list is restored as present with empty past and future; with nothing saved the
greeting message becomes the sole present message. -/
def initHistory (saved : Option (List ChatMessage)) (ts : String) : History :=
  match saved with
  | some savedMessages => { past := [], present := savedMessages, future := [] }
  | none => { past := [], present := [greetingMessage ts], future := [] }

/-- A concrete message used as test data. -/
def msgHi : ChatMessage :=
  { role := Role.user, parts := [{ text := "hi" }], timestamp := "t0" }

/-- C1 counterexample: the streaming update of setMessages changes present
while leaving both past and future unchanged, so the class of all state
updates does not preserve the claimed invariant. -/
theorem streamingUpdate_changes_present_alone :
    (setMessages [msgHi] true ⟨[], [], []⟩).present ≠ (History.mk [] [] []).present ∧
    (setMessages [msgHi] true ⟨[], [], []⟩).past = (History.mk [] [] []).past ∧
    (setMessages [msgHi] true ⟨[], [], []⟩).future = (History.mk [] [] []).future := by
  refine ⟨by decide, rfl, rfl⟩

/-- C1 amended: a streaming update changes only present, leaving past and
future untouched; the non-streaming operations change past or future only as
part of a transition that also rewrites present: non-streaming setMessages
pushes the old present onto past, clears future and installs the new present;
undo pops the last past entry into present pushing the old present onto
future; redo shifts the first future entry into present pushing the old
present onto past. -/
theorem history_updates_frame_conditions
    (M x n : List ChatMessage) (h : History)
    (p f : List (List ChatMessage))
    (hp : h.past = p ++ [x]) (hf : h.future = n :: f) :
    (setMessages M true h).past = h.past ∧
    (setMessages M true h).future = h.future ∧
    setMessages M false h
      = { past := h.past ++ [h.present], present := M, future := [] } ∧
    handleUndo h = { past := p, present := x, future := h.present :: h.future } ∧
    handleRedo h
      = { past := h.past ++ [h.present], present := n, future := f } := by
  refine ⟨rfl, rfl, rfl, ?_, ?_⟩
  · simp [handleUndo, hp, List.getLast?_concat, List.dropLast_concat]
  · obtain ⟨pa, pr, fu⟩ := h
    simp only at hf
    subst hf
    rfl

/-- C1 amended, witness at a concrete state. -/
theorem history_updates_frame_conditions_witness :
    (setMessages [] true ⟨[[]], [], [[]]⟩).past = [[]] ∧
    (setMessages [] true ⟨[[]], [], [[]]⟩).future = [[]] ∧
    setMessages [] false ⟨[[]], [], [[]]⟩ = ⟨[[], []], [], []⟩ ∧
    handleUndo ⟨[[]], [], [[]]⟩ = ⟨[], [], [[], []]⟩ ∧
    handleRedo ⟨[[]], [], [[]]⟩ = ⟨[[], []], [], []⟩ :=
  history_updates_frame_conditions [] [] [] ⟨[[]], [], [[]]⟩ [] [] rfl rfl

/-- C3: undo and redo are mutually inverse where defined, and each is the
identity when its source stack is empty. -/
theorem undo_redo_inverse (h h2 g g2 : History)
    (hp : h.past ≠ []) (hf : h2.future ≠ []) (hg : g.past = []) (hg2 : g2.future = []) :
    handleRedo (handleUndo h) = h ∧
    handleUndo (handleRedo h2) = h2 ∧
    handleUndo g = g ∧
    handleRedo g2 = g2 := by
  refine ⟨?_, ?_, ?_, ?_⟩
  · obtain ⟨pa, pr, fu⟩ := h
    simp only at hp
    obtain ⟨L, b, hL⟩ := pa.eq_nil_or_concat'.resolve_left hp
    subst hL
    simp [handleUndo, handleRedo, List.getLast?_concat, List.dropLast_concat]
  · obtain ⟨pa, pr, fu⟩ := h2
    cases fu with
    | nil => exact absurd rfl hf
    | cons nx rest =>
        simp [handleRedo, handleUndo, List.getLast?_concat, List.dropLast_concat]
  · obtain ⟨pa, pr, fu⟩ := g
    simp only at hg
    subst hg
    rfl
  · obtain ⟨pa, pr, fu⟩ := g2
    simp only at hg2
    subst hg2
    rfl

/-- C3, witness at concrete states. -/
theorem undo_redo_inverse_witness :
    handleRedo (handleUndo ⟨[[]], [], []⟩) = ⟨[[]], [], []⟩ ∧
    handleUndo (handleRedo ⟨[], [], [[]]⟩) = ⟨[], [], [[]]⟩ ∧
    handleUndo ⟨[], [msgHi], []⟩ = ⟨[], [msgHi], []⟩ ∧
    handleRedo ⟨[], [msgHi], []⟩ = ⟨[], [msgHi], []⟩ :=
  undo_redo_inverse ⟨[[]], [], []⟩ ⟨[], [], [[]]⟩ ⟨[], [msgHi], []⟩ ⟨[], [msgHi], []⟩
    (by decide) (by decide) rfl rfl

/-- C2: a non-streaming setMessages appends the old present to past, installs
the new list as present and clears future, so a redo immediately afterwards is
the identity. -/
theorem setMessages_pushes_past_and_clears_future
    (M : List ChatMessage) (h : History) :
    setMessages M false h
      = { past := h.past ++ [h.present], present := M, future := [] } ∧
    handleRedo (setMessages M false h) = setMessages M false h := by
  constructor
  · rfl
  · rfl

/-- One chunk of the provider stream, src/unnamed/part_000 line 149: the text
carried by the chunk together with the timestamp stamped when it is applied
(new Date().toISOString() at line 153). -/
structure StreamChunk where
  text : String
  timestamp : String
deriving DecidableEq

/-- JS assignment a[a.length - 1] = m, src/unnamed/part_000 line 153: on a
non-empty array the last element is replaced; on an empty array the write goes
to index -1 and adds no element. -/
def setLast (l : List ChatMessage) (m : ChatMessage) : List ChatMessage :=
  if l.isEmpty then l else l.dropLast ++ [m]

/-- One iteration of the streaming loop, src/unnamed/part_000 lines 149-156:
the chunk text is appended to the accumulator currentModelMessage and the last
message of present is replaced by a model message carrying the accumulator. -/
def applyChunk (st : String × History) (c : StreamChunk) : String × History :=
  let acc := st.1 ++ c.text
  (acc,
    { st.2 with
        present := setLast st.2.present
          { role := Role.model, parts := [{ text := acc }], timestamp := c.timestamp } })

/-- The whole streaming loop over a list of received chunks. -/
def applyChunks (chunks : List StreamChunk) (st : String × History) : String × History :=
  chunks.foldl applyChunk st

/-- The empty model message seeded before the stream is consumed,
src/unnamed/part_000 line 146. -/
def emptyModelMessage (ts : String) : ChatMessage :=
  { role := Role.model, parts := [{ text := "" }], timestamp := ts }

/-- The canned reply installed when the request fails,
src/unnamed/part_000 line 159. -/
def errorReplyMessage (ts : String) : ChatMessage :=
  { role := Role.model, parts := [{ text := "Sorry, I encountered an error. Please try again." }], timestamp := ts }

/-- The component state sendMessage reads and writes: whether the chat session
was initialized (chat is not null), the history, the input field and the
loading flag, src/unnamed/part_000 lines 16-23. -/
structure ChatState where
  chatReady : Bool
  history : History
  input : String
  isLoading : Bool
deriving DecidableEq

/-- The outcome of the provider call: a list of streamed chunks, or a thrown
error. -/
inductive StreamOutcome where
  | ok (chunks : List StreamChunk)
  | err
deriving DecidableEq

/-- sendMessage, src/unnamed/part_000 lines 134-164, as a function of the
state, the clock values used for the user message, the seeded model message
and the error reply, and the provider outcome.  It returns the final state
after the async function completes (the finally clause clears isLoading) and
the list of message texts sent to the provider.  The guard at line 135 returns
immediately when the trimmed input is empty, the chat is not initialized or a
send is in flight. -/
def sendMessage (s : ChatState) (tsUser tsSeed tsErr : String)
    (outcome : StreamOutcome) : ChatState × List String :=
  if s.input.trim = "" ∨ s.chatReady = false ∨ s.isLoading = true then
    (s, [])
  else
    let messages := s.history.present
    let userMessage : ChatMessage :=
      { role := Role.user, parts := [{ text := s.input }], timestamp := tsUser,
        status := some DeliveryStatus.sent }
    let h1 := setMessages (messages ++ [userMessage]) false s.history
    match outcome with
    | StreamOutcome.ok chunks =>
        let h2 := setMessages (messages ++ [userMessage, emptyModelMessage tsSeed]) true h1
        let h3 := (applyChunks chunks ("", h2)).2
        ({ s with history := h3, input := "", isLoading := false }, [s.input])
    | StreamOutcome.err =>
        let h2 := setMessages (messages ++ [userMessage, errorReplyMessage tsErr]) false h1
        ({ s with history := h2, input := "", isLoading := false }, [s.input])

/-- The concatenation of the chunk texts in arrival order, starting from an
already-accumulated string. -/
def chunksFold (acc : String) (chunks : List StreamChunk) : String :=
  chunks.foldl (fun a c => a ++ c.text) acc

lemma setLast_concat (pre : List ChatMessage) (m0 m : ChatMessage) :
    setLast (pre ++ [m0]) m = pre ++ [m] := by
  simp [setLast, List.dropLast_concat]

lemma applyChunks_last (chunks : List StreamChunk) (acc : String)
    (h : History) (pre : List ChatMessage) (m0 : ChatMessage)
    (hp : h.present = pre ++ [m0])
    (hrole : m0.role = Role.model) (hparts : m0.parts = [{ text := acc }]) :
    ∃ mlast : ChatMessage,
      ((applyChunks chunks (acc, h)).2).present = pre ++ [mlast] ∧
      mlast.role = Role.model ∧
      mlast.parts = [{ text := chunksFold acc chunks }] ∧
      (applyChunks chunks (acc, h)).1 = chunksFold acc chunks ∧
      ((applyChunks chunks (acc, h)).2).past = h.past ∧
      ((applyChunks chunks (acc, h)).2).future = h.future := by
  induction chunks generalizing acc h pre m0 with
  | nil => exact ⟨m0, by simpa [applyChunks, chunksFold] using hp, hrole, hparts, rfl, rfl, rfl⟩
  | cons c rest ih =>
      obtain ⟨mlast, h1', h2', h3', h4', h5', h6'⟩ :=
        ih (acc ++ c.text)
          { h with
              present := setLast h.present
                { role := Role.model, parts := [{ text := acc ++ c.text }],
                  timestamp := c.timestamp } }
          pre
          { role := Role.model, parts := [{ text := acc ++ c.text }],
            timestamp := c.timestamp }
          (by simp [hp, setLast_concat]) rfl rfl
      exact ⟨mlast, h1', h2', h3', h4', h5', h6'⟩

/-- C4: starting from the state seeded by sendMessage (present ends in a
fresh user message followed by the empty model message), after any list of
received chunks the last message of present is a model message whose text is
the concatenation, in arrival order, of the texts of all chunks received so
far, which also equals the accumulator currentModelMessage. -/
theorem stream_accumulates_chunk_texts
    (h : History) (base : List ChatMessage) (u : ChatMessage) (ts : String)
    (chunks : List StreamChunk)
    (hseed : h.present = base ++ [u, emptyModelMessage ts]) :
    ((applyChunks chunks ("", h)).2).present.getLast?.map ChatMessage.role
      = some Role.model ∧
    ((applyChunks chunks ("", h)).2).present.getLast?.map ChatMessage.parts
      = some [{ text := chunksFold "" chunks }] ∧
    (applyChunks chunks ("", h)).1 = chunksFold "" chunks := by
  have hp : h.present = (base ++ [u]) ++ [emptyModelMessage ts] := by
    simp [hseed]
  obtain ⟨mlast, h1', h2', h3', h4', _, _⟩ :=
    applyChunks_last chunks "" h (base ++ [u]) (emptyModelMessage ts) hp rfl rfl
  rw [h1', List.getLast?_concat]
  exact ⟨by simp [h2'], by simp [h3'], h4'⟩

/-- C4, witness with two concrete chunks. -/
theorem stream_accumulates_chunk_texts_witness :
    ((applyChunks [⟨"He", "t2"⟩, ⟨"llo", "t3"⟩]
        ("", ⟨[], [msgHi, emptyModelMessage "t1"], []⟩)).2).present.getLast?.map ChatMessage.role
      = some Role.model ∧
    ((applyChunks [⟨"He", "t2"⟩, ⟨"llo", "t3"⟩]
        ("", ⟨[], [msgHi, emptyModelMessage "t1"], []⟩)).2).present.getLast?.map ChatMessage.parts
      = some [{ text := chunksFold "" [⟨"He", "t2"⟩, ⟨"llo", "t3"⟩] }] ∧
    (applyChunks [⟨"He", "t2"⟩, ⟨"llo", "t3"⟩]
        ("", ⟨[], [msgHi, emptyModelMessage "t1"], []⟩)).1
      = chunksFold "" [⟨"He", "t2"⟩, ⟨"llo", "t3"⟩] :=
  stream_accumulates_chunk_texts ⟨[], [msgHi, emptyModelMessage "t1"], []⟩ [] msgHi "t1"
    [⟨"He", "t2"⟩, ⟨"llo", "t3"⟩] rfl

/-- C5: a single streaming chunk update on a non-empty present list keeps the
length, leaves every message at an earlier position unchanged, and only
replaces the last message with the in-progress model message. -/
theorem chunk_update_frame (acc : String) (h : History) (c : StreamChunk)
    (hne : h.present ≠ []) :
    ((applyChunk (acc, h) c).2).present.length = h.present.length ∧
    (∀ i : Nat, i + 1 < h.present.length →
      ((applyChunk (acc, h) c).2).present[i]? = h.present[i]?) ∧
    ((applyChunk (acc, h) c).2).present.getLast?
      = some { role := Role.model, parts := [{ text := acc ++ c.text }],
               timestamp := c.timestamp } := by
  obtain ⟨pre, m0, hpre⟩ := h.present.eq_nil_or_concat'.resolve_left hne
  have hset : ((applyChunk (acc, h) c).2).present
      = pre ++ [{ role := Role.model, parts := [{ text := acc ++ c.text }],
                  timestamp := c.timestamp }] := by
    show setLast h.present _ = _
    rw [hpre, setLast_concat]
  refine ⟨?_, ?_, ?_⟩
  · rw [hset, hpre]
    simp
  · intro i hi
    rw [hpre] at hi
    simp only [List.length_append, List.length_cons, List.length_nil] at hi
    have hilt : i < pre.length := by omega
    rw [hset, hpre, List.getElem?_append_left hilt, List.getElem?_append_left hilt]
  · rw [hset, List.getLast?_concat]

/-- C5, witness on a present list of two messages. -/
theorem chunk_update_frame_witness :
    ((applyChunk ("a", ⟨[], [msgHi, emptyModelMessage "t1"], []⟩) ⟨"b", "t2"⟩).2).present.length
      = ([msgHi, emptyModelMessage "t1"] : List ChatMessage).length ∧
    (∀ i : Nat, i + 1 < ([msgHi, emptyModelMessage "t1"] : List ChatMessage).length →
      ((applyChunk ("a", ⟨[], [msgHi, emptyModelMessage "t1"], []⟩) ⟨"b", "t2"⟩).2).present[i]?
        = ([msgHi, emptyModelMessage "t1"] : List ChatMessage)[i]?) ∧
    ((applyChunk ("a", ⟨[], [msgHi, emptyModelMessage "t1"], []⟩) ⟨"b", "t2"⟩).2).present.getLast?
      = some { role := Role.model, parts := [{ text := "a" ++ "b" }], timestamp := "t2" } :=
  chunk_update_frame "a" ⟨[], [msgHi, emptyModelMessage "t1"], []⟩ ⟨"b", "t2"⟩ (by decide)

/-- C9: under its guard (blank input, uninitialized chat, or a send already in
flight) sendMessage leaves the whole state unchanged and issues no request. -/
theorem sendMessage_guard_noop (s : ChatState) (tsU tsS tsE : String)
    (oc : StreamOutcome)
    (hguard : s.input.trim = "" ∨ s.chatReady = false ∨ s.isLoading = true) :
    sendMessage s tsU tsS tsE oc = (s, []) := by
  unfold sendMessage
  rw [if_pos hguard]

/-- C9, witness: with the chat session not initialized, sendMessage is a
no-op. -/
theorem sendMessage_guard_noop_witness :
    sendMessage ⟨false, ⟨[], [msgHi], []⟩, "hello", false⟩ "a" "b" "c" StreamOutcome.err
      = (⟨false, ⟨[], [msgHi], []⟩, "hello", false⟩, []) :=
  sendMessage_guard_noop ⟨false, ⟨[], [msgHi], []⟩, "hello", false⟩ "a" "b" "c"
    StreamOutcome.err (Or.inr (Or.inl rfl))

/-- C8 counterexample: a change to a present list holding a single message is
not written to local storage, refuting that the present list is persisted
after every change. -/
theorem persist_skips_short_history :
    persistEffect [greetingMessage "t0"] none ≠ some [greetingMessage "t0"] := by
  decide

/-- C8 amended: a present list with more than one message is written to the
gemini-chat-history key after every change; a present list with at most one
message leaves the stored value untouched; on startup a saved list is restored
as present with empty past and future, and without one the greeting becomes
the sole present message. -/
theorem persist_and_restore
    (msgs msgs2 : List ChatMessage) (store store2 : Option (List ChatMessage))
    (ts : String) (saved : List ChatMessage)
    (h1 : 1 < msgs.length) (h2 : msgs2.length ≤ 1) :
    persistEffect msgs store = some msgs ∧
    persistEffect msgs2 store2 = store2 ∧
    initHistory (some saved) ts = { past := [], present := saved, future := [] } ∧
    initHistory none ts
      = { past := [], present := [greetingMessage ts], future := [] } := by
  refine ⟨?_, ?_, rfl, rfl⟩
  · simp [persistEffect, h1]
  · simp [persistEffect, Nat.not_lt.mpr h2]

/-- C8 amended, witness at concrete lists. -/
theorem persist_and_restore_witness :
    persistEffect [msgHi, msgHi] none = some [msgHi, msgHi] ∧
    persistEffect [msgHi] (some []) = some [] ∧
    initHistory (some [msgHi]) "t" = { past := [], present := [msgHi], future := [] } ∧
    initHistory none "t"
      = { past := [], present := [greetingMessage "t"], future := [] } :=
  persist_and_restore [msgHi, msgHi] [msgHi] none (some []) "t" [msgHi]
    (by decide) (by decide)

/-- Speaker of a live transcript entry, src/components/AudioTools.tsx line 45. -/
inductive Speaker where
  | user
  | model
deriving DecidableEq

/-- One entry of the live transcript, src/components/AudioTools.tsx line 45. -/
structure TranscriptEntry where
  speaker : Speaker
  text : String
deriving DecidableEq

/-- The fields of a LiveServerMessage the transcript handler reads,
src/components/AudioTools.tsx lines 138-152: the text of an output or input
transcription when present, and the turnComplete flag. -/
structure LiveServerMessage where
  outputTranscriptionText : Option String
  inputTranscriptionText : Option String
  turnComplete : Bool
deriving DecidableEq

/-- The transcript-related state of LiveAgent: the entries shown and the two
accumulators, src/components/AudioTools.tsx lines 45 and 56-57. -/
structure LiveState where
  transcripts : List TranscriptEntry
  currentInputTranscription : String
  currentOutputTranscription : String
deriving DecidableEq

/-- The accumulation step of onmessage, src/components/AudioTools.tsx lines
139-143: an output transcription is appended to the output accumulator, else
an input transcription to the input accumulator. -/
def accumStep (m : LiveServerMessage) (s : LiveState) : LiveState :=
  match m.outputTranscriptionText with
  | some t => { s with currentOutputTranscription := s.currentOutputTranscription ++ t }
  | none =>
      match m.inputTranscriptionText with
      | some t => { s with currentInputTranscription := s.currentInputTranscription ++ t }
      | none => s

/-- The transcript part of the onmessage handler, src/components/AudioTools.tsx
lines 138-152: after accumulating, a message with turnComplete flushes the
trimmed accumulators (each only when non-empty, user entry first) onto the
transcript list and resets both accumulators. -/
def onmessageTranscripts (m : LiveServerMessage) (s : LiveState) : LiveState :=
  let s1 := accumStep m s
  if m.turnComplete then
    let userText := s1.currentInputTranscription.trim
    let modelText := s1.currentOutputTranscription.trim
    let t1 := if userText ≠ "" then s1.transcripts ++ [{ speaker := Speaker.user, text := userText }]
              else s1.transcripts
    let t2 := if modelText ≠ "" then t1 ++ [{ speaker := Speaker.model, text := modelText }]
              else t1
    { transcripts := t2, currentInputTranscription := "", currentOutputTranscription := "" }
  else s1

lemma accumStep_transcripts (m : LiveServerMessage) (s : LiveState) :
    (accumStep m s).transcripts = s.transcripts := by
  unfold accumStep
  cases m.outputTranscriptionText with
  | some t => rfl
  | none =>
      cases m.inputTranscriptionText with
      | some t => rfl
      | none => rfl

lemma onmessage_transcripts_extend (m : LiveServerMessage) (s : LiveState) :
    (onmessageTranscripts m s).transcripts.take s.transcripts.length
      = s.transcripts := by
  cases ht : m.turnComplete with
  | false =>
      have : (onmessageTranscripts m s).transcripts = s.transcripts := by
        simp [onmessageTranscripts, ht, accumStep_transcripts]
      simp [this]
  | true =>
      by_cases hu : (accumStep m s).currentInputTranscription.trim = "" <;>
        by_cases hm : (accumStep m s).currentOutputTranscription.trim = "" <;>
          · have h := accumStep_transcripts m s
            simp only [onmessageTranscripts, ht, hu, hm, if_true, if_false, ne_eq,
              not_true_eq_false, not_false_eq_true, ite_true, ite_false, h]
            first
              | exact List.take_length _
              | exact List.take_left' rfl
              | (rw [List.append_assoc]; exact List.take_left' rfl)

/-- C6: on a turn boundary the handler appends the trimmed input accumulator
as a user entry when non-empty, then the trimmed output accumulator as a model
entry when non-empty, and resets both accumulators; and no call of the handler
ever modifies or removes an existing transcript entry: the previous transcript
list is always an unchanged initial segment of the new one. -/
theorem transcripts_append_only_flush (m m2 : LiveServerMessage) (s s2 : LiveState)
    (hturn : m.turnComplete = true) :
    (onmessageTranscripts m s).currentInputTranscription = "" ∧
    (onmessageTranscripts m s).currentOutputTranscription = "" ∧
    (onmessageTranscripts m s).transcripts
      = s.transcripts
        ++ (if (accumStep m s).currentInputTranscription.trim = "" then []
            else [{ speaker := Speaker.user,
                    text := (accumStep m s).currentInputTranscription.trim }])
        ++ (if (accumStep m s).currentOutputTranscription.trim = "" then []
            else [{ speaker := Speaker.model,
                    text := (accumStep m s).currentOutputTranscription.trim }]) ∧
    (onmessageTranscripts m2 s2).transcripts.take s2.transcripts.length
      = s2.transcripts := by
  refine ⟨by simp [onmessageTranscripts, hturn], by simp [onmessageTranscripts, hturn], ?_,
    onmessage_transcripts_extend m2 s2⟩
  by_cases hu : (accumStep m s).currentInputTranscription.trim = "" <;>
    by_cases hm : (accumStep m s).currentOutputTranscription.trim = "" <;>
      simp [onmessageTranscripts, hturn, hu, hm, accumStep_transcripts]

/-- C6, witness: a turn-complete message flushing one user and one model
entry. -/
theorem transcripts_append_only_flush_witness :
    (onmessageTranscripts ⟨some "world", none, true⟩ ⟨[], "hi ", "good"⟩).currentInputTranscription
      = "" ∧
    (onmessageTranscripts ⟨some "world", none, true⟩ ⟨[], "hi ", "good"⟩).currentOutputTranscription
      = "" ∧
    (onmessageTranscripts ⟨some "world", none, true⟩ ⟨[], "hi ", "good"⟩).transcripts
      = ([] : List TranscriptEntry)
        ++ (if (accumStep ⟨some "world", none, true⟩ ⟨[], "hi ", "good"⟩).currentInputTranscription.trim = "" then []
            else [{ speaker := Speaker.user,
                    text := (accumStep ⟨some "world", none, true⟩ ⟨[], "hi ", "good"⟩).currentInputTranscription.trim }])
        ++ (if (accumStep ⟨some "world", none, true⟩ ⟨[], "hi ", "good"⟩).currentOutputTranscription.trim = "" then []
            else [{ speaker := Speaker.model,
                    text := (accumStep ⟨some "world", none, true⟩ ⟨[], "hi ", "good"⟩).currentOutputTranscription.trim }]) ∧
    (onmessageTranscripts ⟨none, some "more", false⟩
        ⟨[{ speaker := Speaker.user, text := "old" }], "", ""⟩).transcripts.take
        ([{ speaker := Speaker.user, text := "old" }] : List TranscriptEntry).length
      = [{ speaker := Speaker.user, text := "old" }] :=
  transcripts_append_only_flush ⟨some "world", none, true⟩ ⟨none, some "more", false⟩
    ⟨[], "hi ", "good"⟩ ⟨[{ speaker := Speaker.user, text := "old" }], "", ""⟩ rfl

/-- One received audio frame of the live session, src/components/AudioTools.tsx
lines 164-176: the audio-context currentTime observed when the frame is
handled and the duration of the decoded buffer, modelled over the rationals. -/
structure AudioFrame where
  currentTime : Rat
  duration : Rat
deriving DecidableEq

/-- The playback scheduling loop, src/components/AudioTools.tsx lines 166-175,
without interruptions: for each frame, nextStartTime is raised to the current
context time if it lags behind, the buffer is started at that time, and
nextStartTime advances by the buffer duration.  Returns the (start, duration)
pairs in arrival order. -/
def scheduleFrames (nextStartTime : Rat) : List AudioFrame → List (Rat × Rat)
  | [] => []
  | f :: rest =>
      (max nextStartTime f.currentTime, f.duration)
        :: scheduleFrames (max nextStartTime f.currentTime + f.duration) rest

/-- The value of nextStartTime after handling a list of frames. -/
def nextStartAfter (nextStartTime : Rat) : List AudioFrame → Rat
  | [] => nextStartTime
  | f :: rest => nextStartAfter (max nextStartTime f.currentTime + f.duration) rest

lemma scheduleFrames_length (n : Rat) (l : List AudioFrame) :
    (scheduleFrames n l).length = l.length := by
  induction l generalizing n with
  | nil => rfl
  | cons f rest ih => simp [scheduleFrames, ih]

lemma scheduleFrames_append (n : Rat) (l1 l2 : List AudioFrame) :
    scheduleFrames n (l1 ++ l2)
      = scheduleFrames n l1 ++ scheduleFrames (nextStartAfter n l1) l2 := by
  induction l1 generalizing n with
  | nil => rfl
  | cons f rest ih => simp [scheduleFrames, nextStartAfter, ih]

lemma scheduleFrames_start_le (n : Rat) (l : List AudioFrame)
    (hd : ∀ f ∈ l, 0 ≤ f.duration) :
    ∀ b ∈ scheduleFrames n l, n ≤ b.1 := by
  induction l generalizing n with
  | nil => intro b hb; simp [scheduleFrames] at hb
  | cons f rest ih =>
      intro b hb
      simp only [scheduleFrames, List.mem_cons] at hb
      rcases hb with hb | hb
      · rw [hb]
        exact le_max_left _ _
      · have h1 : max n f.currentTime + f.duration ≤ b.1 :=
          ih _ (fun g hg => hd g (List.mem_cons_of_mem _ hg)) b hb
        have h2 : n ≤ max n f.currentTime + f.duration :=
          le_add_of_le_of_nonneg (le_max_left _ _) (hd f (List.mem_cons_self _ _))
        exact le_trans h2 h1

lemma scheduleFrames_pairwise (n : Rat) (l : List AudioFrame)
    (hd : ∀ f ∈ l, 0 ≤ f.duration) :
    List.Pairwise (fun a b => a.1 + a.2 ≤ b.1 ∧ a.1 ≤ b.1) (scheduleFrames n l) := by
  induction l generalizing n with
  | nil => exact List.Pairwise.nil
  | cons f rest ih =>
      simp only [scheduleFrames, List.pairwise_cons]
      constructor
      · intro b hb
        have hle : max n f.currentTime + f.duration ≤ b.1 :=
          scheduleFrames_start_le _ _ (fun g hg => hd g (List.mem_cons_of_mem _ hg)) b hb
        exact ⟨hle,
          le_trans (le_add_of_nonneg_right (hd f (List.mem_cons_self _ _))) hle⟩
      · exact ih _ (fun g hg => hd g (List.mem_cons_of_mem _ hg))

/-- C7: with non-negative buffer durations, the schedule built by the
uninterrupted playback loop is gapless and ordered: every buffer at position k
starts at the maximum of the nextStartTime left by the previous buffers (the
previous scheduled end time) and the context time observed for that frame;
scheduled start times are pairwise non-decreasing in arrival order and every
earlier buffer ends no later than a later one starts. -/
theorem audio_schedule_gapless (n : Rat) (frames pre post : List AudioFrame)
    (f : AudioFrame)
    (hd : ∀ g ∈ frames, 0 ≤ g.duration)
    (hsplit : frames = pre ++ f :: post) :
    List.Pairwise (fun a b => a.1 + a.2 ≤ b.1 ∧ a.1 ≤ b.1) (scheduleFrames n frames) ∧
    (scheduleFrames n frames)[pre.length]?
      = some (max (nextStartAfter n pre) f.currentTime, f.duration) := by
  constructor
  · exact scheduleFrames_pairwise n frames hd
  · rw [hsplit, scheduleFrames_append]
    rw [List.getElem?_append_right (by rw [scheduleFrames_length])]
    simp [scheduleFrames_length, scheduleFrames]

/-- C7, witness on two concrete frames. -/
theorem audio_schedule_gapless_witness :
    List.Pairwise (fun a b => a.1 + a.2 ≤ b.1 ∧ a.1 ≤ b.1)
      (scheduleFrames 0 [⟨0, 1⟩, ⟨2, 3⟩]) ∧
    (scheduleFrames 0 [⟨0, 1⟩, ⟨2, 3⟩])[([⟨0, 1⟩] : List AudioFrame).length]?
      = some (max (nextStartAfter 0 [⟨0, 1⟩]) (2 : Rat), 3) :=
  audio_schedule_gapless 0 [⟨0, 1⟩, ⟨2, 3⟩] [⟨0, 1⟩] [] ⟨2, 3⟩
    (by decide) rfl

/-- C10: a confirmed clear resets the history to the single greeting message
with empty past and future and removes the stored value; undo and redo on the
resulting state are the identity; an unconfirmed clear changes nothing. -/
theorem clear_resets_history (st : History × Option (List ChatMessage)) (ts : String) :
    handleClear true ts st
      = ({ past := [], present := [greetingMessage ts], future := [] }, none) ∧
    handleUndo (handleClear true ts st).1 = (handleClear true ts st).1 ∧
    handleRedo (handleClear true ts st).1 = (handleClear true ts st).1 ∧
    handleClear false ts st = st := by
  refine ⟨rfl, rfl, rfl, rfl⟩
